import Mathlib

/-!
Verification development for `qt/aqt/models.py` of the Anki repository:
the note-type manager dialog (`Models`) and the "add note type" picker
(`AddModel`).

The Python module is GUI glue: each user operation is an event handler
that reads the dialog's cached state (a list of (name, id, use-count)
entries and the list widget's selected row), calls into an external
collection API, and rebuilds the list widget.  We embed it shallowly:

* dialog state is a `World` record (cached entries, list widget,
  collection handle, constructor-provided note-type id);
* each handler becomes a pure Lean function `Env → World → World × List Call`
  where `Env` packs the user's dialog answers and the external oracles
  (the `all_use_counts` result, the `copy` result, the translated
  count label), and the `List Call` is the ordered trace of external
  calls the handler performs;
* the background-task idiom (`taskman.with_progress(work, on_done)`) is
  collapsed sequentially: a `withProgress` trace event marks the
  dispatch, the work's calls follow, `taskDone` marks completion, and
  the `on_done` callback runs after it.

Qt `QListWidget` behaviour used by the code is modelled from Qt's
documented semantics: `clear` empties the list and clears the current
row (−1); `addItem` appends and leaves the current row unchanged;
`setCurrentRow r` selects row `r` when `0 ≤ r < count` and otherwise
clears the selection (current row −1).

Python list subscription `xs[i]` is modelled by `pyGet`: non-negative
indices are direct, negative indices count from the end, anything out
of range is `none` (Python raises `IndexError`).
-/

/-- The double-quote character, written via its code point. -/
def dquote : Char := Char.ofNat 34

/-- Python `s.replace(chr(34), "")`: remove every double-quote character. -/
def stripQuotes (s : String) : String :=
  String.mk (s.data.filter (fun c => c ≠ dquote))

/-- Python list subscription `xs[i]`: negative indices count from the
end; out-of-range access is `none` (Python raises `IndexError`). -/
def pyGet {α : Type _} (xs : List α) (i : Int) : Option α :=
  let j := if 0 ≤ i then i else i + xs.length
  if 0 ≤ j ∧ j < xs.length then xs.get? j.toNat else none

/-- `anki.models.NoteTypeNameIDUseCount`: one entry of
`col.models.all_use_counts()`. -/
structure NoteTypeNameIDUseCount where
  name : String
  id : Nat
  use_count : Nat
deriving Repr, DecidableEq

/-- The fields of an `anki.models.NoteType` dict this module touches. -/
structure NoteType where
  id : Nat
  name : String
  latexPre : String
  latexPost : String
  latexsvg : Bool
deriving Repr, DecidableEq

/-- Modelled from the spec: the external collection object is a
pre-existing collaborator (its note-type storage is not under `src/`);
we keep just the list of stored note types, which is all this module's
calls can touch. -/
structure Collection where
  notetypes : List NoteType
deriving Repr, DecidableEq

/-- Modelled from the spec: `col.models.get(id)` of the external
collection API — look a note type up by id. -/
def Collection.get (c : Collection) (id : Nat) : Option NoteType :=
  c.notetypes.find? (fun nt => nt.id = id)

/-- Modelled from the spec: `col.models.save(nt)` of the external
collection API — store the note type, replacing any with the same id. -/
def Collection.save (c : Collection) (nt : NoteType) : Collection :=
  if c.notetypes.any (fun m => m.id = nt.id) then
    ⟨c.notetypes.map (fun m => if m.id = nt.id then nt else m)⟩
  else
    ⟨c.notetypes ++ [nt]⟩

/-- Modelled from the spec: `col.models.rem(nt)` of the external
collection API — remove the note type. -/
def Collection.rem (c : Collection) (nt : NoteType) : Collection :=
  ⟨c.notetypes.filter (fun m => m.id ≠ nt.id)⟩

/-- The `QListWidget` state the code observes: the item labels in
order, and the current row (−1 = no selection), per Qt semantics. -/
structure ListWidget where
  items : List String
  currentRow : Int
deriving Repr, DecidableEq

/-- Qt `QListWidget.clear()`: removes all items and clears the
current row. -/
def ListWidget.clear (_w : ListWidget) : ListWidget :=
  ⟨[], -1⟩

/-- Qt `QListWidget.addItem(label)`: appends an item; the current row
is unchanged. -/
def ListWidget.addItem (w : ListWidget) (label : String) : ListWidget :=
  ⟨w.items ++ [label], w.currentRow⟩

/-- Qt `QListWidget.setCurrentRow(r)`: selects row `r` when it is in
range, otherwise clears the selection (current row −1). -/
def ListWidget.setCurrentRow (w : ListWidget) (r : Int) : ListWidget :=
  if 0 ≤ r ∧ r < (w.items.length : Int) then ⟨w.items, r⟩ else ⟨w.items, -1⟩

/-- The `Models` dialog's state: the cached `self.models` list, the
list widget, the collection handle, and the constructor argument
`selected_notetype_id` (`none` models Python `None`). -/
structure World where
  col : Collection
  widget : ListWidget
  models : List NoteTypeNameIDUseCount
  selected_notetype_id : Option Nat
deriving Repr, DecidableEq

/-- One external call made by a handler, in trace order. -/
inductive Call where
  | showInfo
  | askUser (answer : Bool)
  | modSchemaCheck (ok : Bool)
  | getText (text : String) (accepted : Bool)
  | withProgress
  | save (nt : NoteType)
  | rem (nt : NoteType)
  | allUseCounts (result : List NoteTypeNameIDUseCount)
  | taskDone
  | updateList (rows : Nat)
  | copy (src result : NoteType)
  | setCurrent (nt : NoteType)
deriving Repr, DecidableEq

/-- The dialog answers and external oracles a handler run consumes:
`askUserAnswer` and `getTextResult` are the user's dialog responses,
`modSchemaOk` is whether `col.modSchema(check=True)` passes,
`latex*In` are the LaTeX-options dialog inputs, `aucResult` is the
external `all_use_counts` oracle, `copyFn` the external `models.copy`
oracle, and `trCount` the translated note-count label. -/
structure Env where
  askUserAnswer : Bool
  modSchemaOk : Bool
  getTextResult : String × Bool
  latexsvgIn : Bool
  latexPreIn : String
  latexPostIn : String
  aucResult : Collection → List NoteTypeNameIDUseCount
  copyFn : NoteType → NoteType
  trCount : Nat → String

/-- The label of one list row: Python
`f-string of m.name and tr.browsing_note_count(count=m.use_count)`. -/
def rowLabel (tc : Nat → String) (m : NoteTypeNameIDUseCount) : String :=
  m.name ++ " [" ++ tc m.use_count ++ "]"

/-- `Models.updateModelsList` (models.py lines 121–132): remember the
current row (defaulting −1 to 0), clear the widget, replace the cache,
add one labelled row per entry, and restore the remembered row. -/
def updateModelsList (tc : Nat → String) (s : World)
    (notetypes : List NoteTypeNameIDUseCount) : World :=
  let row := s.widget.currentRow
  let row := if row = -1 then 0 else row
  let w := s.widget.clear
  let w := notetypes.foldl (fun w m => w.addItem (rowLabel tc m)) w
  { s with models := notetypes, widget := w.setCurrentRow row }

/-- The `self.models[row]` read inside `Models.current_notetype`
(models.py line 136), with Python index semantics. -/
def currentEntry (s : World) : Option NoteTypeNameIDUseCount :=
  pyGet s.models s.widget.currentRow

/-- `Models.current_notetype` (models.py lines 134–136):
`self.mm.get(self.models[row].id)`. -/
def current_notetype (s : World) : Option NoteType :=
  (currentEntry s).bind (fun e => s.col.get e.id)

/-- Python truthiness of the optional note-type id: `None` and `0` are
falsy. -/
def idTruthy : Option Nat → Bool
  | none => false
  | some n => n ≠ 0

/-- The `for i, m in enumerate(xs): if p(m): ...; break` loop: index of
the first element satisfying `p`, if any. -/
def findFirst {α : Type _} (p : α → Bool) : List α → Option Nat
  | [] => none
  | x :: xs => if p x then some 0 else (findFirst p xs).map (fun i => i + 1)

/-- `Models.maybe_select_provided_notetype` (models.py lines 60–67):
a falsy `selected_notetype_id` (Python `None` or `0`) selects row 0;
otherwise the first cached entry with that id (if any) is selected via
`setCurrentRow`, and nothing happens when no entry matches. -/
def maybe_select_provided_notetype (s : World) : World :=
  if idTruthy s.selected_notetype_id then
    match findFirst (fun m => some m.id = s.selected_notetype_id) s.models with
    | some i => { s with widget := s.widget.setCurrentRow i }
    | none => s
  else
    { s with widget := s.widget.setCurrentRow 0 }

/-- `Models.saveAndRefresh` (models.py lines 111–119): dispatch one
background task that saves the note type and fetches fresh use counts;
its completion callback rebuilds the list. -/
def saveAndRefresh (env : Env) (s : World) (nt : NoteType) :
    World × List Call :=
  let col := s.col.save nt
  let nts := env.aucResult col
  let s' := updateModelsList env.trCount { s with col := col } nts
  (s', [Call.withProgress, Call.save nt, Call.allUseCounts nts,
        Call.taskDone, Call.updateList nts.length])

/-- `Models.onRename` (models.py lines 103–109): read the current note
type, ask for a new name, strip double quotes; when the dialog was
accepted and the stripped name is non-empty, store the name and
save-and-refresh. -/
def onRename (env : Env) (s : World) : World × List Call :=
  match current_notetype s with
  | none => (s, [])
  | some nt =>
    let txt := env.getTextResult
    let name := stripQuotes txt.1
    let t0 := [Call.getText txt.1 txt.2]
    if txt.2 ∧ name ≠ "" then
      let r := saveAndRefresh env s { nt with name := name }
      (r.1, t0 ++ r.2)
    else
      (s, t0)

/-- `Models.onAdd` (models.py lines 138–144): `m?` is the outcome of
the `AddModel` picker (`none` = cancelled).  When a note type came
back, ask for a name, strip double quotes, store it only when
non-empty, and save-and-refresh in every case. -/
def onAdd (env : Env) (m? : Option NoteType) (s : World) :
    World × List Call :=
  match m? with
  | none => (s, [])
  | some m =>
    let txt := stripQuotes env.getTextResult.1
    let t0 := [Call.getText env.getTextResult.1 env.getTextResult.2]
    let m := if txt ≠ "" then { m with name := txt } else m
    let r := saveAndRefresh env s m
    (r.1, t0 ++ r.2)

/-- `Models.onDelete` (models.py lines 146–169): fewer than two cached
entries shows an informational message and returns; otherwise the user
is asked to confirm (the message depends on the selected entry's use
count), the schema-modification check runs, and one background task
removes the current note type and refreshes the list. -/
def onDelete (env : Env) (s : World) : World × List Call :=
  if s.models.length < 2 then
    (s, [Call.showInfo])
  else
    let idx := s.widget.currentRow
    match pyGet s.models idx with
    | none => (s, [])
    | some _entry =>
      if env.askUserAnswer then
        let t1 := [Call.askUser true, Call.modSchemaCheck env.modSchemaOk]
        if env.modSchemaOk then
          match current_notetype s with
          | none => (s, t1)
          | some nt =>
            let col := s.col.rem nt
            let nts := env.aucResult col
            let s' := updateModelsList env.trCount { s with col := col } nts
            (s', t1 ++ [Call.withProgress, Call.rem nt,
                        Call.allUseCounts nts, Call.taskDone,
                        Call.updateList nts.length])
        else
          (s, t1)
      else
        (s, [Call.askUser false])

/-- `Models.onAdvanced` (models.py lines 171–191): read the current
note type, run the LaTeX-options dialog, write its three fields back,
and save-and-refresh. -/
def onAdvanced (env : Env) (s : World) : World × List Call :=
  match current_notetype s with
  | none => (s, [])
  | some nt =>
    saveAndRefresh env s
      { nt with latexsvg := env.latexsvgIn,
                latexPre := env.latexPreIn,
                latexPost := env.latexPostIn }

/-- The initial load in `Models.setupModels` (models.py lines 96–100):
one background `all_use_counts` call whose completion callback rebuilds
the list and then selects the provided note type. -/
def setupLoad (env : Env) (s : World) : World × List Call :=
  let nts := env.aucResult s.col
  let s' := updateModelsList env.trCount s nts
  let s'' := maybe_select_provided_notetype s'
  (s'', [Call.withProgress, Call.allUseCounts nts, Call.taskDone,
         Call.updateList nts.length])

/-- One entry of the `AddModel` picker's `self.models` list
(models.py lines 231–241): `(True, func)` for a stock-note-type
builder, `(False, m)` for an existing note type to clone. -/
inductive AddEntry where
  | stock (build : Collection → NoteType)
  | clone (nt : NoteType)

/-- The `AddModel` dialog's state: its entry list and the picker
widget's current row, plus the `self.model` result slot. -/
structure AddModelState where
  entries : List AddEntry
  currentRow : Int
  model : Option NoteType

/-- `AddModel.accept` (models.py lines 256–265): a stock entry builds a
fresh stock note type (no external model calls); a clone entry stores
the result of `models.copy` and makes it current via
`models.setCurrent`. -/
def AddModel.accept (env : Env) (col : Collection) (s : AddModelState) :
    AddModelState × List Call :=
  match pyGet s.entries s.currentRow with
  | none => (s, [])
  | some (AddEntry.stock build) =>
      ({ s with model := some (build col) }, [])
  | some (AddEntry.clone m) =>
      let m' := env.copyFn m
      ({ s with model := some m' }, [Call.copy m m', Call.setCurrent m'])

/-! ### Concrete fixtures used by counterexamples and witnesses -/

/-- A concrete count-label translation. -/
def tc0 : Nat → String := fun n => toString n ++ " notes"

/-- A concrete stored note type. -/
def nt1 : NoteType := ⟨1, "Basic", "", "", false⟩

/-- A second concrete stored note type. -/
def nt2 : NoteType := ⟨2, "Cloze", "", "", false⟩

/-- Use-count entry for `nt1`. -/
def e1 : NoteTypeNameIDUseCount := ⟨"Basic", 1, 3⟩

/-- Use-count entry for `nt2`. -/
def e2 : NoteTypeNameIDUseCount := ⟨"Cloze", 2, 0⟩

/-- An entry whose id is 0 (Python-falsy id). -/
def e0 : NoteTypeNameIDUseCount := ⟨"Zero", 0, 0⟩

/-- A concrete collection holding `nt1` and `nt2`. -/
def col0 : Collection := ⟨[nt1, nt2]⟩

/-- A dialog state with two cached entries and row 0 selected. -/
def w0 : World :=
  ⟨col0, ⟨[rowLabel tc0 e1, rowLabel tc0 e2], 0⟩, [e1, e2], none⟩

/-- Same as `w0` but with row 1 (the last row) selected. -/
def w1 : World := { w0 with widget := ⟨w0.widget.items, 1⟩ }

/-- A dialog state with a single cached entry. -/
def wOne : World := ⟨col0, ⟨[rowLabel tc0 e1], 0⟩, [e1], none⟩

/-- A dialog state constructed with `selected_notetype_id = 0`, where
the entry with id 0 sits in row 1, not row 0. -/
def s10 : World := ⟨col0, ⟨["r0", "r1"], -1⟩, [e1, e0], some 0⟩

/-- A concrete environment: user confirms everything and enters
`NewName`. -/
def env0 : Env :=
  ⟨true, true, ("NewName", true), false, "", "",
   fun _ => [e1], fun nt => { nt with id := 99 }, tc0⟩

/-- Like `env0` but the user declines the confirmation dialog. -/
def envDecline : Env := { env0 with askUserAnswer := false }

/-- Like `env0` but the entered name is `x` followed by a double
quote. -/
def envQuote : Env :=
  { env0 with getTextResult := (String.mk ['x', dquote], true) }

/-- Like `env0` but the text dialog was cancelled. -/
def envCancel : Env := { env0 with getTextResult := ("abc", false) }

/-- Like `env0` but the entered name consists only of double quotes. -/
def envEmptyName : Env :=
  { env0 with getTextResult := (String.mk [dquote, dquote], true) }

/-- A concrete stock-note-type builder. -/
def stockBuild : Collection → NoteType := fun _ => nt1

/-- An `AddModel` picker state with the stock entry selected. -/
def addS : AddModelState :=
  ⟨[AddEntry.stock stockBuild, AddEntry.clone nt2], 0, none⟩

/-- An `AddModel` picker state with the clone entry selected. -/
def addC : AddModelState := { addS with currentRow := 1 }

/-! ### Helper lemmas -/

/-- Folding `addItem` over the entries appends exactly one labelled row
per entry, in order, and leaves the current row alone. -/
theorem foldl_addItem (tc : Nat → String)
    (nts : List NoteTypeNameIDUseCount) (w : ListWidget) :
    nts.foldl (fun w m => w.addItem (rowLabel tc m)) w =
      ⟨w.items ++ nts.map (rowLabel tc), w.currentRow⟩ := by
  induction nts generalizing w with
  | nil => simp
  | cons m rest ih =>
      simp only [List.foldl_cons]
      rw [ih]
      simp [ListWidget.addItem]

/-- Closed form of `updateModelsList`: the cache becomes the new list,
the widget rows are the labelled entries, and the remembered row is
re-selected per Qt semantics. -/
theorem updateModelsList_eq (tc : Nat → String) (s : World)
    (nts : List NoteTypeNameIDUseCount) :
    updateModelsList tc s nts =
      { s with models := nts,
               widget := ListWidget.setCurrentRow ⟨nts.map (rowLabel tc), -1⟩
                 (if s.widget.currentRow = -1 then 0 else s.widget.currentRow) } := by
  simp only [updateModelsList]
  rw [foldl_addItem]
  simp [ListWidget.clear]

/-- For a non-negative index, `pyGet` is plain list lookup. -/
theorem pyGet_nonneg {α : Type _} (xs : List α) (i : Int) (h : 0 ≤ i) :
    pyGet xs i = xs.get? i.toNat := by
  simp only [pyGet, if_pos h]
  by_cases hk : i < (xs.length : Int)
  · rw [if_pos ⟨h, hk⟩]
  · rw [if_neg (fun hc => hk hc.2)]
    exact (List.get?_eq_none.mpr (by omega)).symm

/-- Python `xs[-1]` is the last element. -/
theorem pyGet_neg_one {α : Type _} (xs : List α) :
    pyGet xs (-1) = xs.getLast? := by
  cases xs with
  | nil => rfl
  | cons a l =>
      have h0 : ¬ ((0 : Int) ≤ -1) := by norm_num
      simp only [pyGet, if_neg h0]
      have hcond : (0 : Int) ≤ -1 + ((a :: l).length : Int) ∧
          -1 + ((a :: l).length : Int) < ((a :: l).length : Int) := by
        simp only [List.length_cons]
        push_cast
        omega
      rw [if_pos hcond]
      have ht : (-1 + ((a :: l).length : Int)).toNat = l.length := by
        simp only [List.length_cons]
        push_cast
        omega
      rw [ht, List.getLast?_eq_getElem?, List.get?_eq_getElem?]
      simp

/-- `setCurrentRow` never changes the item list. -/
theorem setCurrentRow_items (w : ListWidget) (r : Int) :
    (w.setCurrentRow r).items = w.items := by
  unfold ListWidget.setCurrentRow
  split <;> rfl

/-- `updateModelsList` replaces the cache with the passed list. -/
theorem updateModelsList_models (tc : Nat → String) (s : World)
    (nts : List NoteTypeNameIDUseCount) :
    (updateModelsList tc s nts).models = nts := by
  rw [updateModelsList_eq]

/-- `updateModelsList` shows one labelled row per entry, in order. -/
theorem updateModelsList_items (tc : Nat → String) (s : World)
    (nts : List NoteTypeNameIDUseCount) :
    (updateModelsList tc s nts).widget.items = nts.map (rowLabel tc) := by
  rw [updateModelsList_eq]
  exact setCurrentRow_items _ _

/-! ### C6 -/

/-- C6: after every `updateModelsList` call, the cached `self.models`
list equals exactly the `all_use_counts` sequence that produced it, and
the widget shows one labelled row per entry, in the same order. -/
theorem updateModelsList_mirrors_use_counts (tc : Nat → String) (s : World)
    (nts : List NoteTypeNameIDUseCount) :
    (updateModelsList tc s nts).models = nts ∧
    (updateModelsList tc s nts).widget.items = nts.map (rowLabel tc) :=
  ⟨updateModelsList_models tc s nts, updateModelsList_items tc s nts⟩

/-! ### C1 -/

/-- C1 is refuted as stated: refreshing a two-entry list down to one
entry while row 1 is selected leaves the selected row at −1, which is
not an index `i` with `0 ≤ i <` length of `self.models`. -/
theorem updateModelsList_can_clear_selection :
    (updateModelsList tc0 w1 [e1]).models.length = 1 ∧
    (updateModelsList tc0 w1 [e1]).widget.currentRow = -1 ∧
    ¬ (0 ≤ (updateModelsList tc0 w1 [e1]).widget.currentRow ∧
       (updateModelsList tc0 w1 [e1]).widget.currentRow <
         ((updateModelsList tc0 w1 [e1]).models.length : Int)) := by
  decide

/-- C1 (amended): after every `updateModelsList` call the selected row
is either an in-range index of the cached list or −1 (selection
cleared, which happens when the prior row does not fit the new list);
when the row is non-negative, `current_notetype`'s `self.models[row]`
read returns the entry at that in-range index, and when the row is −1
the Python `[-1]` read returns the last entry. -/
theorem updateModelsList_row_in_range_or_cleared (tc : Nat → String)
    (s : World) (nts : List NoteTypeNameIDUseCount) :
    ((updateModelsList tc s nts).widget.currentRow = -1 ∨
      (0 ≤ (updateModelsList tc s nts).widget.currentRow ∧
        (updateModelsList tc s nts).widget.currentRow <
          ((updateModelsList tc s nts).models.length : Int))) ∧
    (0 ≤ (updateModelsList tc s nts).widget.currentRow →
      currentEntry (updateModelsList tc s nts) =
        nts.get? (updateModelsList tc s nts).widget.currentRow.toNat) ∧
    ((updateModelsList tc s nts).widget.currentRow = -1 →
      currentEntry (updateModelsList tc s nts) = nts.getLast?) := by
  have hm : (updateModelsList tc s nts).models = nts :=
    updateModelsList_models tc s nts
  have hce : currentEntry (updateModelsList tc s nts) =
      pyGet nts (updateModelsList tc s nts).widget.currentRow := by
    rw [currentEntry, hm]
  have hcr : (updateModelsList tc s nts).widget.currentRow =
      (if 0 ≤ (if s.widget.currentRow = -1 then 0 else s.widget.currentRow) ∧
          (if s.widget.currentRow = -1 then 0 else s.widget.currentRow) <
            (nts.length : Int)
        then (if s.widget.currentRow = -1 then 0 else s.widget.currentRow)
        else -1) := by
    rw [updateModelsList_eq]
    simp only [ListWidget.setCurrentRow, List.length_map,
               apply_ite ListWidget.currentRow]
  rw [hm, hce, hcr]
  by_cases hc : 0 ≤ (if s.widget.currentRow = -1 then 0 else s.widget.currentRow) ∧
      (if s.widget.currentRow = -1 then 0 else s.widget.currentRow) < (nts.length : Int)
  · rw [if_pos hc]
    refine ⟨Or.inr hc, fun h0 => pyGet_nonneg nts _ hc.1, fun hneg => ?_⟩
    exact absurd (hneg ▸ hc.1) (by norm_num)
  · rw [if_neg hc]
    exact ⟨Or.inl rfl, fun h0 => absurd h0 (by norm_num),
           fun _ => pyGet_neg_one nts⟩

/-- Closed check of `updateModelsList_row_in_range_or_cleared` at two
concrete inputs: one where a row stays selected and one where the
selection is cleared. -/
theorem updateModelsList_row_in_range_or_cleared_witness :
    currentEntry (updateModelsList tc0 w0 [e1, e2]) =
      [e1, e2].get? (updateModelsList tc0 w0 [e1, e2]).widget.currentRow.toNat ∧
    currentEntry (updateModelsList tc0 w1 [e1]) = [e1].getLast? :=
  ⟨(updateModelsList_row_in_range_or_cleared tc0 w0 [e1, e2]).2.1 (by decide),
   (updateModelsList_row_in_range_or_cleared tc0 w1 [e1]).2.2 (by decide)⟩

/-! ### onDelete trace analysis (C2, C3, C8) -/

/-- Every run of `onDelete` falls into one of five shapes: short-list
info message, indexing failure, declined confirmation, failed or
aborted schema check / missing note type, or the full removal path. -/
theorem onDelete_trace_cases (env : Env) (s : World) :
    ((onDelete env s).2 = [Call.showInfo] ∧ (onDelete env s).1 = s) ∨
    ((onDelete env s).2 = [] ∧ (onDelete env s).1 = s) ∨
    ((onDelete env s).2 = [Call.askUser false] ∧ (onDelete env s).1 = s ∧
      env.askUserAnswer = false) ∨
    ((onDelete env s).2 = [Call.askUser true,
        Call.modSchemaCheck env.modSchemaOk] ∧ (onDelete env s).1 = s ∧
      env.askUserAnswer = true) ∨
    (∃ nt, current_notetype s = some nt ∧ env.askUserAnswer = true ∧
      env.modSchemaOk = true ∧
      (onDelete env s).2 = [Call.askUser true, Call.modSchemaCheck true,
        Call.withProgress, Call.rem nt,
        Call.allUseCounts (env.aucResult (s.col.rem nt)), Call.taskDone,
        Call.updateList (env.aucResult (s.col.rem nt)).length]) := by
  by_cases hlen : s.models.length < 2
  · exact Or.inl (by simp [onDelete, hlen])
  · rcases hpy : pyGet s.models s.widget.currentRow with _ | entry
    · exact Or.inr (Or.inl (by simp [onDelete, hlen, hpy]))
    · by_cases hask : env.askUserAnswer = true
      · by_cases hok : env.modSchemaOk = true
        · rcases hcn : current_notetype s with _ | nt
          · refine Or.inr (Or.inr (Or.inr (Or.inl ?_)))
            simp [onDelete, hlen, hpy, hask, hok, hcn]
          · refine Or.inr (Or.inr (Or.inr (Or.inr ⟨nt, rfl, hask, hok, ?_⟩)))
            simp [onDelete, hlen, hpy, hask, hok, hcn]
        · refine Or.inr (Or.inr (Or.inr (Or.inl ?_)))
          simp [onDelete, hlen, hpy, hask, hok]
      · refine Or.inr (Or.inr (Or.inl ?_))
        simp [onDelete, hlen, hpy, hask]

/-- C2: in every `onDelete` run, any `models.rem` call is preceded by
`askUser` returning true, and a declined confirmation leaves the
dialog state (collection included) unchanged with no removal call. -/
theorem onDelete_rem_only_after_confirm (env : Env) (s : World) :
    (∀ x j, (onDelete env s).2.get? j = some (Call.rem x) →
      Call.askUser true ∈ (onDelete env s).2.take j) ∧
    (env.askUserAnswer = false →
      (onDelete env s).1 = s ∧ ∀ x, Call.rem x ∉ (onDelete env s).2) := by
  rcases onDelete_trace_cases env s with
    ⟨ht, hw⟩ | ⟨ht, hw⟩ | ⟨ht, hw, hf⟩ | ⟨ht, hw, hta⟩ | ⟨nt, hcn, hask, hok, ht⟩
  · refine ⟨fun x j h => ?_, fun _ => ⟨hw, fun x => by rw [ht]; simp⟩⟩
    rw [ht] at h
    rcases j with _ | j <;> simp_all
  · refine ⟨fun x j h => ?_, fun _ => ⟨hw, fun x => by rw [ht]; simp⟩⟩
    rw [ht] at h
    simp at h
  · refine ⟨fun x j h => ?_, fun _ => ⟨hw, fun x => by rw [ht]; simp⟩⟩
    rw [ht] at h
    rcases j with _ | j <;> simp_all
  · refine ⟨fun x j h => ?_, fun _ => ⟨hw, fun x => by rw [ht]; simp⟩⟩
    rw [ht] at h
    rcases j with _ | _ | j <;> simp_all
  · constructor
    · intro x j h
      rw [ht] at h ⊢
      rcases j with _ | _ | _ | _ | _ | _ | _ | j <;>
        simp_all [List.take_succ_cons]
    · intro hfalse
      rw [hask] at hfalse
      cases hfalse

/-- C3: in every `onDelete` run that reaches `models.rem`, the
schema-modification check (`modSchema(check=True)`, and it passed)
happens earlier in the trace. -/
theorem onDelete_modSchema_before_rem (env : Env) (s : World) :
    ∀ x j, (onDelete env s).2.get? j = some (Call.rem x) →
      Call.modSchemaCheck true ∈ (onDelete env s).2.take j := by
  rcases onDelete_trace_cases env s with
    ⟨ht, hw⟩ | ⟨ht, hw⟩ | ⟨ht, hw, hf⟩ | ⟨ht, hw, hta⟩ | ⟨nt, hcn, hask, hok, ht⟩
  · intro x j h
    rw [ht] at h
    rcases j with _ | j <;> simp_all
  · intro x j h
    rw [ht] at h
    simp at h
  · intro x j h
    rw [ht] at h
    rcases j with _ | j <;> simp_all
  · intro x j h
    rw [ht] at h
    rcases j with _ | _ | j <;> simp_all
  · intro x j h
    rw [ht] at h ⊢
    rcases j with _ | _ | _ | _ | _ | _ | _ | j <;>
      simp_all [List.take_succ_cons]

/-- C8: with fewer than two cached note types, `onDelete` only shows an
informational message: the dialog state (collection and cache included)
is unchanged, and neither the schema check nor `models.rem` runs. -/
theorem onDelete_short_list_shows_info (env : Env) (s : World)
    (h : s.models.length < 2) :
    (onDelete env s).1 = s ∧ (onDelete env s).2 = [Call.showInfo] ∧
    (∀ b, Call.modSchemaCheck b ∉ (onDelete env s).2) ∧
    (∀ x, Call.rem x ∉ (onDelete env s).2) := by
  have ht : onDelete env s = (s, [Call.showInfo]) := by
    simp [onDelete, h]
  rw [ht]
  exact ⟨rfl, rfl, fun b => by simp, fun x => by simp⟩

/-- Closed check of `onDelete_rem_only_after_confirm`: declining leaves
`w0` unchanged, and on the accepting run the `rem` call at index 3 is
preceded by `askUser true`. -/
theorem onDelete_rem_only_after_confirm_witness :
    (onDelete envDecline w0).1 = w0 ∧
    Call.askUser true ∈ ((onDelete env0 w0).2.take 3) :=
  ⟨((onDelete_rem_only_after_confirm envDecline w0).2 rfl).1,
   (onDelete_rem_only_after_confirm env0 w0).1 nt1 3 (by decide)⟩

/-- Closed check of `onDelete_modSchema_before_rem` on the accepting
run over `w0`. -/
theorem onDelete_modSchema_before_rem_witness :
    Call.modSchemaCheck true ∈ ((onDelete env0 w0).2.take 3) :=
  onDelete_modSchema_before_rem env0 w0 nt1 3 (by decide)

/-- Closed check of `onDelete_short_list_shows_info` on a one-entry
dialog. -/
theorem onDelete_short_list_shows_info_witness :
    (onDelete env0 wOne).1 = wOne ∧
    (onDelete env0 wOne).2 = [Call.showInfo] :=
  ⟨(onDelete_short_list_shows_info env0 wOne (by decide)).1,
   (onDelete_short_list_shows_info env0 wOne (by decide)).2.1⟩

/-! ### C4 and C9: renaming and adding -/

/-- C4 is refuted as stated: entering the text `x"` (dialog accepted,
stripped name non-empty) stores and saves the name `x`, which is not
the entered text. -/
theorem onRename_name_differs_from_entered_text :
    envQuote.getTextResult.2 = true ∧
    stripQuotes envQuote.getTextResult.1 ≠ "" ∧
    (onRename envQuote w0).2.get? 2 =
      some (Call.save { nt1 with name := "x" }) ∧
    ("x" : String) ≠ envQuote.getTextResult.1 := by
  decide

/-- C4 (amended): whenever `onRename` finds a current note type, the
dialog is accepted and the entered text with double quotes removed is
non-empty, the note type's name is set to that stripped text, the note
type is passed to `models.save`, and the list is rebuilt from the
fresh `all_use_counts` result. -/
theorem onRename_saves_stripped_name_and_refreshes (env : Env)
    (s : World) (nt : NoteType) (hcn : current_notetype s = some nt)
    (hacc : env.getTextResult.2 = true)
    (hne : stripQuotes env.getTextResult.1 ≠ "") :
    (onRename env s).2 =
      [Call.getText env.getTextResult.1 true, Call.withProgress,
       Call.save { nt with name := stripQuotes env.getTextResult.1 },
       Call.allUseCounts (env.aucResult
         (s.col.save { nt with name := stripQuotes env.getTextResult.1 })),
       Call.taskDone,
       Call.updateList (env.aucResult
         (s.col.save { nt with name := stripQuotes env.getTextResult.1 })).length] ∧
    (onRename env s).1.models =
      env.aucResult (s.col.save { nt with name := stripQuotes env.getTextResult.1 }) := by
  have hr : onRename env s =
      ((saveAndRefresh env s { nt with name := stripQuotes env.getTextResult.1 }).1,
        Call.getText env.getTextResult.1 true ::
          (saveAndRefresh env s { nt with name := stripQuotes env.getTextResult.1 }).2) := by
    simp [onRename, hcn, hacc, hne]
  rw [hr]
  refine ⟨by simp [saveAndRefresh], ?_⟩
  simp only [saveAndRefresh]
  exact updateModelsList_models _ _ _

/-- Closed check of `onRename_saves_stripped_name_and_refreshes` on
`env0`/`w0`. -/
theorem onRename_saves_stripped_name_and_refreshes_witness :
    (onRename env0 w0).1.models =
      env0.aucResult (w0.col.save
        { nt1 with name := stripQuotes env0.getTextResult.1 }) :=
  (onRename_saves_stripped_name_and_refreshes env0 w0 nt1 (by decide) rfl
    (by decide)).2

/-- C9: stripping and no-op behaviour of `onRename` and `onAdd`: the
stripped text never contains a double quote; an accepted rename with
non-empty stripped text saves the note type under the stripped name;
`onAdd` with non-empty stripped text saves the new note type under the
stripped name; a rename that was cancelled or whose stripped name is
empty saves nothing and leaves the dialog state unchanged. -/
theorem rename_and_add_strip_quotes (env : Env) (s : World) :
    (∀ t, dquote ∉ (stripQuotes t).data) ∧
    (∀ nt, current_notetype s = some nt → env.getTextResult.2 = true →
      stripQuotes env.getTextResult.1 ≠ "" →
      Call.save { nt with name := stripQuotes env.getTextResult.1 } ∈
        (onRename env s).2) ∧
    (∀ m, stripQuotes env.getTextResult.1 ≠ "" →
      Call.save { m with name := stripQuotes env.getTextResult.1 } ∈
        (onAdd env (some m) s).2) ∧
    ((env.getTextResult.2 = false ∨ stripQuotes env.getTextResult.1 = "") →
      (onRename env s).1 = s ∧ ∀ x, Call.save x ∉ (onRename env s).2) := by
  refine ⟨fun t => ?_, fun nt hcn hacc hne => ?_, fun m hne => ?_,
          fun hfail => ?_⟩
  · simp [stripQuotes, List.mem_filter]
  · simp [onRename, hcn, hacc, hne, saveAndRefresh]
  · simp [onAdd, hne, saveAndRefresh]
  · rcases hcn : current_notetype s with _ | nt
    · refine ⟨by simp [onRename, hcn], fun x => by simp [onRename, hcn]⟩
    · rcases hfail with hf | hf
      · have : ¬ (env.getTextResult.2 = true ∧
            stripQuotes env.getTextResult.1 ≠ "") := by
          rw [hf]; simp
        refine ⟨by simp [onRename, hcn, this], fun x => ?_⟩
        simp [onRename, hcn, this]
      · have : ¬ (env.getTextResult.2 = true ∧
            stripQuotes env.getTextResult.1 ≠ "") := by
          rw [hf]; simp
        refine ⟨by simp [onRename, hcn, this], fun x => ?_⟩
        simp [onRename, hcn, this]

/-- Closed check of `rename_and_add_strip_quotes`: a stripped save on
`env0`/`w0`, and a cancelled rename leaving `w0` unchanged. -/
theorem rename_and_add_strip_quotes_witness :
    Call.save { nt1 with name := stripQuotes env0.getTextResult.1 } ∈
      (onRename env0 w0).2 ∧
    (onRename envCancel w0).1 = w0 :=
  ⟨(rename_and_add_strip_quotes env0 w0).2.1 nt1 (by decide) rfl (by decide),
   ((rename_and_add_strip_quotes envCancel w0).2.2.2 (Or.inl rfl)).1⟩

/-! ### C10: initial selection -/

/-- A found first index is in range. -/
theorem findFirst_lt_length {α : Type _} (p : α → Bool) (l : List α)
    (i : Nat) (h : findFirst p l = some i) : i < l.length := by
  induction l generalizing i with
  | nil => simp [findFirst] at h
  | cons a t ih =>
      simp only [findFirst] at h
      by_cases hp : p a
      · rw [if_pos hp] at h
        cases h
        simp
      · rw [if_neg hp] at h
        rcases ho : findFirst p t with _ | k
        · rw [ho] at h
          simp at h
        · rw [ho] at h
          simp at h
          have := ih k ho
          simp
          omega

/-- The first found index points at a matching element, and everything
before it does not match. -/
theorem findFirst_spec {α : Type _} (p : α → Bool) (l : List α)
    (i : Nat) (h : findFirst p l = some i) :
    (∃ x, l.get? i = some x ∧ p x = true) ∧
    (∀ k, k < i → ∀ y, l.get? k = some y → p y = false) := by
  induction l generalizing i with
  | nil => simp [findFirst] at h
  | cons a t ih =>
      simp only [findFirst] at h
      by_cases hp : p a
      · rw [if_pos hp] at h
        cases h
        exact ⟨⟨a, rfl, hp⟩, fun k hk y hy => absurd hk (by omega)⟩
      · rw [if_neg hp] at h
        rcases ho : findFirst p t with _ | k
        · rw [ho] at h
          simp at h
        · rw [ho] at h
          simp at h
          subst h
          rcases ih k ho with ⟨⟨x, hx, hpx⟩, hbefore⟩
          refine ⟨⟨x, by simpa using hx, hpx⟩, fun k' hk' y hy => ?_⟩
          cases k' with
          | zero =>
              simp at hy
              rw [← hy]
              simpa using hp
          | succ k'' =>
              exact hbefore k'' (by omega) y (by simpa using hy)

/-- C10 is refuted as stated: the constructor was passed the id 0,
row 1 holds the (only) entry with id 0, yet the Python-falsy check
treats the passed id like no id at all and selects row 0. -/
theorem maybe_select_zero_id_counterexample :
    s10.selected_notetype_id = some 0 ∧
    (s10.models.get? 1).map (fun m => m.id) = some 0 ∧
    (s10.models.get? 0).map (fun m => m.id) = some 1 ∧
    (maybe_select_provided_notetype s10).widget.currentRow = 0 := by
  decide

/-- C10 (amended): after the initial load (one widget row per cached
entry), a Python-falsy `selected_notetype_id` (absent or 0) selects
row 0 when the list is non-empty; a non-zero id that matches some
cached entry selects the first matching row; a non-zero id with no
matching entry changes nothing. -/
theorem maybe_select_provided_notetype_cases (s : World)
    (hlen : s.widget.items.length = s.models.length) :
    (idTruthy s.selected_notetype_id = false → s.models ≠ [] →
      (maybe_select_provided_notetype s).widget.currentRow = 0) ∧
    (∀ nid i, s.selected_notetype_id = some nid → nid ≠ 0 →
      findFirst (fun m => some m.id = s.selected_notetype_id) s.models =
        some i →
      ((maybe_select_provided_notetype s).widget.currentRow = (i : Int) ∧
        (∃ m, s.models.get? i = some m ∧ m.id = nid) ∧
        ∀ k, k < i → ∀ y, s.models.get? k = some y → y.id ≠ nid)) ∧
    (∀ nid, s.selected_notetype_id = some nid → nid ≠ 0 →
      findFirst (fun m => some m.id = s.selected_notetype_id) s.models =
        none →
      maybe_select_provided_notetype s = s) := by
  refine ⟨fun hf hne => ?_, fun nid i hid hnz hff => ?_, fun nid hid hnz hff => ?_⟩
  · rw [maybe_select_provided_notetype, hf]
    simp only [Bool.false_eq_true, if_false, ListWidget.setCurrentRow]
    rw [if_pos]
    constructor
    · norm_num
    · rw [hlen]
      have : 0 < s.models.length := List.length_pos.mpr hne
      exact_mod_cast this
  · have htr : idTruthy s.selected_notetype_id = true := by
      rw [hid]
      simpa [idTruthy] using hnz
    have hi : i < s.models.length :=
      findFirst_lt_length _ _ _ hff
    rcases findFirst_spec _ _ _ hff with ⟨⟨m, hm, hpm⟩, hbefore⟩
    refine ⟨?_, ⟨m, hm, ?_⟩, fun k hk y hy => ?_⟩
    · rw [maybe_select_provided_notetype, htr, if_pos rfl, hff]
      simp only [ListWidget.setCurrentRow]
      rw [if_pos]
      constructor
      · exact_mod_cast Nat.zero_le i
      · rw [hlen]
        exact_mod_cast hi
    · rw [hid] at hpm
      have : some m.id = some nid := of_decide_eq_true hpm
      simpa using this
    · have := hbefore k hk y hy
      rw [hid] at this
      intro hcontra
      rw [hcontra] at this
      simp at this
  · have htr : idTruthy s.selected_notetype_id = true := by
      rw [hid]
      simpa [idTruthy] using hnz
    rw [maybe_select_provided_notetype, htr, if_pos rfl, hff]

/-- Closed check of `maybe_select_provided_notetype_cases`: no provided
id selects row 0 on `w0`; the provided id 1 selects the first matching
row 0. -/
theorem maybe_select_provided_notetype_cases_witness :
    (maybe_select_provided_notetype w0).widget.currentRow = 0 ∧
    (maybe_select_provided_notetype
      { w0 with selected_notetype_id := some 1 }).widget.currentRow = 0 :=
  ⟨(maybe_select_provided_notetype_cases w0 (by decide)).1 rfl (by decide),
   ((maybe_select_provided_notetype_cases
      { w0 with selected_notetype_id := some 1 } (by decide)).2.1 1 0 rfl
      (by decide) (by decide)).1⟩

/-! ### C5: the AddModel picker -/

/-- C5: accepting the picker with a stock entry selected stores a
freshly built stock note type and makes no external model calls;
accepting with an existing note type selected stores the result of
`models.copy` and makes it current via `models.setCurrent`. -/
theorem addModel_accept_stock_vs_clone (env : Env) (col : Collection)
    (s : AddModelState) :
    (∀ b, pyGet s.entries s.currentRow = some (AddEntry.stock b) →
      ((AddModel.accept env col s).1.model = some (b col) ∧
        (AddModel.accept env col s).2 = [])) ∧
    (∀ m, pyGet s.entries s.currentRow = some (AddEntry.clone m) →
      ((AddModel.accept env col s).1.model = some (env.copyFn m) ∧
        (AddModel.accept env col s).2 =
          [Call.copy m (env.copyFn m), Call.setCurrent (env.copyFn m)])) := by
  constructor
  · intro b hb
    simp [AddModel.accept, hb]
  · intro m hm
    simp [AddModel.accept, hm]

/-- Closed check of `addModel_accept_stock_vs_clone` on a concrete
two-entry picker, once per branch. -/
theorem addModel_accept_stock_vs_clone_witness :
    (AddModel.accept env0 col0 addS).1.model = some (stockBuild col0) ∧
    (AddModel.accept env0 col0 addS).2 = [] ∧
    (AddModel.accept env0 col0 addC).1.model = some (env0.copyFn nt2) ∧
    (AddModel.accept env0 col0 addC).2 =
      [Call.copy nt2 (env0.copyFn nt2), Call.setCurrent (env0.copyFn nt2)] :=
  ⟨((addModel_accept_stock_vs_clone env0 col0 addS).1 stockBuild rfl).1,
   ((addModel_accept_stock_vs_clone env0 col0 addS).1 stockBuild rfl).2,
   ((addModel_accept_stock_vs_clone env0 col0 addC).2 nt2 rfl).1,
   ((addModel_accept_stock_vs_clone env0 col0 addC).2 nt2 rfl).2⟩

/-! ### C7: one background call per operation -/

/-- The `saveAndRefresh` trace has one `withProgress` dispatch and its
only list rebuild comes after `taskDone`. -/
theorem saveAndRefresh_trace_good (env : Env) (s : World) (nt : NoteType) :
    (saveAndRefresh env s nt).2.countP
      (fun c => decide (c = Call.withProgress)) ≤ 1 ∧
    ∀ j n, (saveAndRefresh env s nt).2.get? j = some (Call.updateList n) →
      Call.taskDone ∈ (saveAndRefresh env s nt).2.take j := by
  constructor
  · simp [saveAndRefresh, List.countP_cons]
  · intro j n h
    simp only [saveAndRefresh] at h ⊢
    rcases j with _ | _ | _ | _ | _ | j <;>
      simp_all [List.take_succ_cons]

/-- Prepending a non-dispatch, non-rebuild event preserves the two
trace properties. -/
theorem trace_good_cons (a : Call) (t : List Call)
    (ha : a ≠ Call.withProgress) (hb : ∀ n, a ≠ Call.updateList n)
    (h1 : t.countP (fun c => decide (c = Call.withProgress)) ≤ 1)
    (h2 : ∀ j n, t.get? j = some (Call.updateList n) →
      Call.taskDone ∈ t.take j) :
    (a :: t).countP (fun c => decide (c = Call.withProgress)) ≤ 1 ∧
    ∀ j n, (a :: t).get? j = some (Call.updateList n) →
      Call.taskDone ∈ (a :: t).take j := by
  constructor
  · simpa [List.countP_cons, ha] using h1
  · intro j n h
    cases j with
    | zero =>
        simp at h
        exact absurd h (hb n)
    | succ j =>
        have hj : t.get? j = some (Call.updateList n) := by simpa using h
        rw [List.take_succ_cons]
        exact List.mem_cons_of_mem a (h2 j n hj)

/-- The empty trace trivially satisfies the two trace properties. -/
theorem trace_good_nil :
    ([] : List Call).countP (fun c => decide (c = Call.withProgress)) ≤ 1 ∧
    ∀ j n, ([] : List Call).get? j = some (Call.updateList n) →
      Call.taskDone ∈ ([] : List Call).take j := by
  refine ⟨by simp, fun j n h => ?_⟩
  simp at h

/-- C7: every user operation of the dialog — the initial list load,
rename, add, delete and the LaTeX-options dialog — dispatches at most
one background (`with_progress`) call per invocation, and any list
rebuild in its trace happens only after that call has completed
(`taskDone` precedes every `updateList` event). -/
theorem one_background_call_per_operation (env : Env) (s : World)
    (m? : Option NoteType) :
    ((setupLoad env s).2.countP
        (fun c => decide (c = Call.withProgress)) ≤ 1 ∧
      ∀ j n, (setupLoad env s).2.get? j = some (Call.updateList n) →
        Call.taskDone ∈ (setupLoad env s).2.take j) ∧
    ((onRename env s).2.countP
        (fun c => decide (c = Call.withProgress)) ≤ 1 ∧
      ∀ j n, (onRename env s).2.get? j = some (Call.updateList n) →
        Call.taskDone ∈ (onRename env s).2.take j) ∧
    ((onAdd env m? s).2.countP
        (fun c => decide (c = Call.withProgress)) ≤ 1 ∧
      ∀ j n, (onAdd env m? s).2.get? j = some (Call.updateList n) →
        Call.taskDone ∈ (onAdd env m? s).2.take j) ∧
    ((onDelete env s).2.countP
        (fun c => decide (c = Call.withProgress)) ≤ 1 ∧
      ∀ j n, (onDelete env s).2.get? j = some (Call.updateList n) →
        Call.taskDone ∈ (onDelete env s).2.take j) ∧
    ((onAdvanced env s).2.countP
        (fun c => decide (c = Call.withProgress)) ≤ 1 ∧
      ∀ j n, (onAdvanced env s).2.get? j = some (Call.updateList n) →
        Call.taskDone ∈ (onAdvanced env s).2.take j) := by
  refine ⟨?_, ?_, ?_, ?_, ?_⟩
  · -- setupLoad: a four-event trace
    constructor
    · simp [setupLoad, List.countP_cons]
    · intro j n h
      simp only [setupLoad] at h ⊢
      rcases j with _ | _ | _ | _ | j <;>
        simp_all [List.take_succ_cons]
  · -- onRename
    rcases hcn : current_notetype s with _ | nt
    · have ht : (onRename env s).2 = [] := by simp [onRename, hcn]
      rw [ht]
      exact trace_good_nil
    · by_cases hok : env.getTextResult.2 = true ∧
          stripQuotes env.getTextResult.1 ≠ ""
      · have ht : (onRename env s).2 =
            Call.getText env.getTextResult.1 env.getTextResult.2 ::
              (saveAndRefresh env s
                { nt with name := stripQuotes env.getTextResult.1 }).2 := by
          simp [onRename, hcn, hok.1, hok.2]
        rw [ht]
        exact trace_good_cons _ _ (by simp) (fun n => by simp)
          (saveAndRefresh_trace_good env s _).1
          (saveAndRefresh_trace_good env s _).2
      · have ht : (onRename env s).2 =
            [Call.getText env.getTextResult.1 env.getTextResult.2] := by
          simp only [onRename, hcn]
          rw [if_neg hok]
        rw [ht]
        refine ⟨by simp [List.countP_cons], fun j n h => ?_⟩
        rcases j with _ | j <;> simp_all
  · -- onAdd
    rcases m? with _ | m
    · have ht : (onAdd env none s).2 = [] := by simp [onAdd]
      rw [ht]
      exact trace_good_nil
    · have ht : (onAdd env (some m) s).2 =
          Call.getText env.getTextResult.1 env.getTextResult.2 ::
            (saveAndRefresh env s
              (if stripQuotes env.getTextResult.1 ≠ ""
                then { m with name := stripQuotes env.getTextResult.1 }
                else m)).2 := by
        simp only [onAdd]
        split <;> simp
      rw [ht]
      exact trace_good_cons _ _ (by simp) (fun n => by simp)
        (saveAndRefresh_trace_good env s _).1
        (saveAndRefresh_trace_good env s _).2
  · -- onDelete, via the five-way case split
    rcases onDelete_trace_cases env s with
      ⟨ht, hw⟩ | ⟨ht, hw⟩ | ⟨ht, hw, hf⟩ | ⟨ht, hw, hta⟩ |
      ⟨nt, hcn, hask, hok, ht⟩
    · rw [ht]
      refine ⟨by simp [List.countP_cons], fun j n h => ?_⟩
      rcases j with _ | j <;> simp_all
    · rw [ht]
      exact trace_good_nil
    · rw [ht]
      refine ⟨by simp [List.countP_cons], fun j n h => ?_⟩
      rcases j with _ | j <;> simp_all
    · rw [ht]
      refine ⟨by simp [List.countP_cons], fun j n h => ?_⟩
      rcases j with _ | _ | j <;> simp_all
    · rw [ht]
      refine ⟨by simp [List.countP_cons], fun j n h => ?_⟩
      rcases j with _ | _ | _ | _ | _ | _ | _ | j <;>
        simp_all [List.take_succ_cons]
  · -- onAdvanced
    rcases hcn : current_notetype s with _ | nt
    · have ht : (onAdvanced env s).2 = [] := by simp [onAdvanced, hcn]
      rw [ht]
      exact trace_good_nil
    · have ht : (onAdvanced env s).2 = (saveAndRefresh env s
          { nt with latexsvg := env.latexsvgIn,
                    latexPre := env.latexPreIn,
                    latexPost := env.latexPostIn }).2 := by
        simp [onAdvanced, hcn]
      rw [ht]
      exact saveAndRefresh_trace_good env s _

/-- Closed check of `one_background_call_per_operation`: on the
accepting rename over `env0`/`w0` the rebuild at index 5 follows the
completion event. -/
theorem one_background_call_per_operation_witness :
    Call.taskDone ∈ ((onRename env0 w0).2.take 5) :=
  (one_background_call_per_operation env0 w0 none).2.1.2 5 1 (by decide)
